import Mathlib

/-!
Shallow embedding of the `Extended<T>` extended-number class from
`src/extended.h` (with its error machinery from `src/infinite_error.h`),
instantiated at a signed integer payload type modelled by `Int`.

The C++ class stores a payload `m_value : T` together with a discriminant
`m_flag : char` taking one of the three constant values `FINITE_FLAG = 0`,
`POS_INF_FLAG = 1`, `NEG_INF_FLAG = -1`.  We translate this directly as a
structure of an `Int` payload and an `Int` flag; `Extended.Valid` captures
the invariant, established by every constructor, that the flag is one of
the three constants.  The `default:` branches of the C++ switch statements
(reachable only for an invalid flag) are translated as error results, like
the `throw` statements they are.

Operations that can throw `infinite_error` are translated as functions into
`Except (Extended × String) _`: an exception carries the message together
with the state of the receiver at the moment of the throw, which lets us
state strong exception-safety of the compound assignment operators.  In the
C++ source no mutation of the receiver ever precedes a throw in the same
control path, so every `.error` below carries the untouched receiver.
-/

/-- `enum class INF : bool { POS = true, NEG = false }`. -/
inductive INF where
  | POS : INF
  | NEG : INF
deriving DecidableEq, Repr

/-- The state of an `Extended<T>` object: payload `m_value` and
discriminant `m_flag` (`0` finite, `1` positive infinity, `-1` negative
infinity). -/
structure Extended where
  m_value : Int
  m_flag : Int
deriving DecidableEq, Repr

namespace Extended

/-- `static constexpr char FINITE_FLAG = 0`. -/
def FINITE_FLAG : Int := 0

/-- `static constexpr char POS_INF_FLAG = 1`. -/
def POS_INF_FLAG : Int := 1

/-- `static constexpr char NEG_INF_FLAG = -1`. -/
def NEG_INF_FLAG : Int := -1

/-- The class invariant: every object built by the public interface has its
flag equal to one of the three declared constants. -/
def Valid (e : Extended) : Prop :=
  e.m_flag = FINITE_FLAG ∨ e.m_flag = POS_INF_FLAG ∨ e.m_flag = NEG_INF_FLAG

instance (e : Extended) : Decidable e.Valid := by
  unfold Valid FINITE_FLAG POS_INF_FLAG NEG_INF_FLAG; exact inferInstance

/-- `Extended()` : zero-initialized finite value. -/
def mkDefault : Extended := { m_value := 0, m_flag := FINITE_FLAG }

/-- `Extended(T number)` : parameter-initialized finite value. -/
def mkFinite (number : Int) : Extended := { m_value := number, m_flag := FINITE_FLAG }

/-- `Extended(INF inf_type)` : infinity-initialized value. -/
def mkInf (inf_type : INF) : Extended :=
  { m_value := 0
    m_flag := if inf_type = INF.POS then POS_INF_FLAG else NEG_INF_FLAG }

/-- `operator=(T number)` : assign from finite value. -/
def assignFinite (e : Extended) (number : Int) : Extended :=
  { e with m_value := number, m_flag := FINITE_FLAG }

/-- `operator=(INF inf_type)` : assign to positive or negative infinity. -/
def assignInf (e : Extended) (inf_type : INF) : Extended :=
  { e with m_flag := if inf_type = INF.POS then POS_INF_FLAG else NEG_INF_FLAG }

/-- `finite()` : whether this is finite. -/
def finite (e : Extended) : Bool := e.m_flag == FINITE_FLAG

/-- `value()` : the finite payload; throws a finite error on an infinite
receiver.  The method is `const`: it never modifies the receiver, which the
embedding reflects by its type. -/
def value (e : Extended) : Except String Int :=
  if e.finite then .ok e.m_value
  else .error "Finite error: This is infinite."

/-- `infinite_type()` : the sign of an infinite receiver; throws a finite
error on a finite receiver.  Also a `const` method. -/
def infinite_type (e : Extended) : Except String INF :=
  if !e.finite then .ok (if e.m_flag == POS_INF_FLAG then INF.POS else INF.NEG)
  else .error "Finite error: This is finite."

/-- `operator==` : payload comparison when both operands finite, flag
comparison otherwise. -/
def beq (num_1 num_2 : Extended) : Bool :=
  if num_1.finite && num_2.finite then num_1.m_value == num_2.m_value
  else num_1.m_flag == num_2.m_flag

/-- `operator!=`. -/
def bne (num_1 num_2 : Extended) : Bool := !(beq num_1 num_2)

/-- `operator<`. -/
def blt (num_1 num_2 : Extended) : Bool :=
  if num_1.finite && num_2.finite then num_1.m_value < num_2.m_value
  else if num_1.finite then num_2.m_flag == POS_INF_FLAG
  else if num_2.finite then num_1.m_flag == NEG_INF_FLAG
  else num_1.m_flag == NEG_INF_FLAG && num_2.m_flag == POS_INF_FLAG

/-- `operator>` : defined as the swapped `operator<`. -/
def bgt (num_1 num_2 : Extended) : Bool := blt num_2 num_1

/-- `operator<=` : defined as the negation of the swapped `operator<`. -/
def ble (num_1 num_2 : Extended) : Bool := !(blt num_2 num_1)

/-- `operator>=`. -/
def bge (num_1 num_2 : Extended) : Bool := !(blt num_1 num_2)

/-- Unary `operator+` : copy of the receiver. -/
def uplus (e : Extended) : Extended := e

/-- Unary `operator-` : starts from a default-constructed value, negating
the payload of a finite receiver and the flag of an infinite one. -/
def uminus (e : Extended) : Extended :=
  if e.finite then { mkDefault with m_value := -e.m_value }
  else { mkDefault with m_flag := -e.m_flag }

/-- `operator bool` : an infinite value is truthy; a finite value is truthy
iff its payload is nonzero. -/
def toBool (e : Extended) : Bool :=
  if !e.finite then true else e.m_value != 0

/-- Prefix `operator++` : increments the payload unconditionally, never
touching the flag; `noexcept`, so it is a total function. -/
def incPre (e : Extended) : Extended := { e with m_value := e.m_value + 1 }

/-- Postfix `operator++` : returns the prior copy paired with the mutated
receiver. -/
def incPost (e : Extended) : Extended × Extended :=
  (e, { e with m_value := e.m_value + 1 })

/-- Prefix `operator--`. -/
def decPre (e : Extended) : Extended := { e with m_value := e.m_value - 1 }

/-- Postfix `operator--`. -/
def decPost (e : Extended) : Extended × Extended :=
  (e, { e with m_value := e.m_value - 1 })

/-- Result of a throwing mutator: either the new state of the receiver, or
the state of the receiver at the throw paired with the exception message. -/
abbrev MutResult := Except (Extended × String) Extended

/-- `operator+=` : the additive state machine. -/
def addAssign (a other : Extended) : MutResult :=
  if a.m_flag == FINITE_FLAG then
    if other.m_flag == FINITE_FLAG then
      .ok { a with m_value := a.m_value + other.m_value }
    else if other.m_flag == POS_INF_FLAG || other.m_flag == NEG_INF_FLAG then
      .ok { a with m_flag := other.m_flag }
    else .error (a, "Internal error: invalid infinite flag.")
  else if a.m_flag == POS_INF_FLAG then
    if other.m_flag == FINITE_FLAG || other.m_flag == POS_INF_FLAG then .ok a
    else if other.m_flag == NEG_INF_FLAG then
      .error (a, "Indeterminate form: +inf + -inf")
    else .error (a, "Internal error: invalid infinite flag.")
  else if a.m_flag == NEG_INF_FLAG then
    if other.m_flag == POS_INF_FLAG then
      .error (a, "Indeterminate form: -inf + +inf")
    else if other.m_flag == FINITE_FLAG || other.m_flag == NEG_INF_FLAG then .ok a
    else .error (a, "Internal error: invalid infinite flag.")
  else .error (a, "Internal error: invalid infinite flag.")

/-- `operator-=` : the subtractive state machine. -/
def subAssign (a other : Extended) : MutResult :=
  if a.m_flag == FINITE_FLAG then
    if other.m_flag == FINITE_FLAG then
      .ok { a with m_value := a.m_value - other.m_value }
    else if other.m_flag == POS_INF_FLAG || other.m_flag == NEG_INF_FLAG then
      .ok { a with m_flag := -other.m_flag }
    else .error (a, "Internal error: invalid infinite flag.")
  else if a.m_flag == POS_INF_FLAG then
    if other.m_flag == FINITE_FLAG || other.m_flag == NEG_INF_FLAG then .ok a
    else if other.m_flag == POS_INF_FLAG then
      .error (a, "Indeterminate form: +inf - +inf")
    else .error (a, "Internal error: invalid infinite flag.")
  else if a.m_flag == NEG_INF_FLAG then
    if other.m_flag == FINITE_FLAG || other.m_flag == POS_INF_FLAG then .ok a
    else if other.m_flag == NEG_INF_FLAG then
      .error (a, "Indeterminate form: -inf - -inf")
    else .error (a, "Internal error: invalid infinite flag.")
  else .error (a, "Internal error: invalid infinite flag.")

/-- `operator*=` : the multiplicative state machine (never throws on valid
flags). -/
def mulAssign (a other : Extended) : MutResult :=
  if a.m_flag == FINITE_FLAG then
    if other.m_flag == FINITE_FLAG then
      .ok { a with m_value := a.m_value * other.m_value }
    else if other.m_flag == POS_INF_FLAG || other.m_flag == NEG_INF_FLAG then
      if a.m_value < 0 then .ok { a with m_flag := -other.m_flag }
      else if a.m_value > 0 then .ok { a with m_flag := other.m_flag }
      else .ok a
    else .error (a, "Internal error: invalid infinite flag.")
  else if a.m_flag == POS_INF_FLAG then
    if other.m_flag == FINITE_FLAG then
      if other.m_value == 0 then .ok { a with m_value := 0, m_flag := FINITE_FLAG }
      else if other.m_value < 0 then .ok { a with m_flag := NEG_INF_FLAG }
      else .ok a
    else if other.m_flag == POS_INF_FLAG || other.m_flag == NEG_INF_FLAG then
      .ok { a with m_flag := other.m_flag }
    else .error (a, "Internal error: invalid infinite flag.")
  else if a.m_flag == NEG_INF_FLAG then
    if other.m_flag == FINITE_FLAG then
      if other.m_value == 0 then .ok { a with m_value := 0, m_flag := FINITE_FLAG }
      else if other.m_value < 0 then .ok { a with m_flag := POS_INF_FLAG }
      else .ok a
    else if other.m_flag == POS_INF_FLAG || other.m_flag == NEG_INF_FLAG then
      .ok { a with m_flag := -other.m_flag }
    else .error (a, "Internal error: invalid infinite flag.")
  else .error (a, "Internal error: invalid infinite flag.")

/-- `operator/=` : the division state machine.  C++ integer division
truncates toward zero, which `Int.tdiv` models. -/
def divAssign (a other : Extended) : MutResult :=
  if a.m_flag == FINITE_FLAG then
    if other.m_flag == FINITE_FLAG then
      if other.m_value == 0 then .error (a, "Indeterminate form: +inf / 0")
      else .ok { a with m_value := a.m_value.tdiv other.m_value }
    else if other.m_flag == POS_INF_FLAG || other.m_flag == NEG_INF_FLAG then
      .ok { a with m_value := 0 }
    else .error (a, "Internal error: invalid infinite flag.")
  else if a.m_flag == POS_INF_FLAG then
    if other.m_flag == FINITE_FLAG then
      if other.m_value == 0 then .error (a, "Indeterminate form: +inf / 0")
      else if other.m_value < 0 then .ok { a with m_flag := NEG_INF_FLAG }
      else .ok a
    else if other.m_flag == POS_INF_FLAG then
      .error (a, "+inf / +inf indeterminate form.")
    else if other.m_flag == NEG_INF_FLAG then
      .error (a, "+inf / -inf indeterminate form.")
    else .error (a, "Internal error: invalid infinite flag.")
  else if a.m_flag == NEG_INF_FLAG then
    if other.m_flag == FINITE_FLAG then
      if other.m_value == 0 then .error (a, "Indeterminate form: +inf / 0")
      else if other.m_value < 0 then .ok { a with m_flag := POS_INF_FLAG }
      else .ok a
    else if other.m_flag == POS_INF_FLAG then
      .error (a, "-inf / +inf indeterminate form.")
    else if other.m_flag == NEG_INF_FLAG then
      .error (a, "-inf / -inf indeterminate form.")
    else .error (a, "Internal error: invalid infinite flag.")
  else .error (a, "Internal error: invalid infinite flag.")

/-- `operator%=` : requires both operands finite, then takes the primitive
remainder of the payloads.  C++ `%` on integers is the truncated-division
remainder, which `Int.tmod` models. -/
def modAssign (a other : Extended) : MutResult :=
  if a.finite && other.finite then
    .ok { a with m_value := a.m_value.tmod other.m_value }
  else .error (a, "Finite error: modular arithmetic requires finite values.")

/-- Unary `operator~` : requires a finite receiver; `const`, returns a new
value with the complemented payload (`~x = -(x+1)` in two's complement). -/
def bitNot (e : Extended) : Except String Extended :=
  if e.finite then .ok (mkFinite (~~~e.m_value))
  else .error "Finite error: bitwise not requires finite values."

/-- `operator&=` : requires both operands finite.  Two's-complement bitwise
and, modelled by `Int.land`. -/
def andAssign (a other : Extended) : MutResult :=
  if a.finite && other.finite then
    .ok { a with m_value := a.m_value.land other.m_value }
  else .error (a, "Finite error: bitwise and requires finite values.")

/-- `operator|=` : requires both operands finite. -/
def orAssign (a other : Extended) : MutResult :=
  if a.finite && other.finite then
    .ok { a with m_value := a.m_value.lor other.m_value }
  else .error (a, "Finite error: bitwise or requires finite values.")

/-- `operator^=` : requires both operands finite. -/
def xorAssign (a other : Extended) : MutResult :=
  if a.finite && other.finite then
    .ok { a with m_value := a.m_value.xor other.m_value }
  else .error (a, "Finite error: bitwise xor requires finite values.")

/-- The primitive left shift `x << s` of the payload type: multiplication
by `2^s` for the nonnegative shift amounts the source uses. -/
def shlPrim (x s : Int) : Int := x * 2 ^ s.toNat

/-- The primitive arithmetic right shift `x >> s` of the payload type,
modelled by `Int.shiftRight` (sign-extending). -/
def shrPrim (x s : Int) : Int := Int.shiftRight x s.toNat

/-- `operator<<=` : requires both operands finite. -/
def shlAssign (a other : Extended) : MutResult :=
  if a.finite && other.finite then
    .ok { a with m_value := shlPrim a.m_value other.m_value }
  else .error (a, "Finite error: bitwise leftshift requires finite values.")

/-- `operator>>=` : requires both operands finite. -/
def shrAssign (a other : Extended) : MutResult :=
  if a.finite && other.finite then
    .ok { a with m_value := shrPrim a.m_value other.m_value }
  else .error (a, "Finite error: bitwise rightshift requires finite values.")

/-- Stream output `operator<<` : the primitive textual rendering of the
payload when finite (`toString` on `Int`), the literal `+inf` / `-inf`
otherwise. -/
def render (ext : Extended) : String :=
  if ext.finite then toString ext.m_value
  else if ext.m_flag == POS_INF_FLAG then "+inf" else "-inf"

/-- Accumulating decimal digit reader, part of the model of the stream
library's integer extraction (which is standard-library code, not part of
this repository). -/
def readDigits : List Char → Nat → Option Nat
  | [], acc => some acc
  | c :: cs, acc =>
    if c.isDigit then readDigits cs (acc * 10 + (c.toNat - Char.toNat '0'))
    else none

/-- Model of the stream library's decimal integer extraction: an optional
leading minus sign followed by decimal digits. -/
def parseInt (text : String) : Option Int :=
  match text.data with
  | [] => none
  | '-' :: [] => none
  | '-' :: c :: cs => (readDigits (c :: cs) 0).map (fun n => -(n : Int))
  | cs => (readDigits cs 0).map (fun n => (n : Int))

/-- Stream input `operator>>` : sets the flag to finite and then extracts a
primitive value from the stream into the payload (the extraction being the
primitive type's own stream parse, modelled by `parseInt`); on parse
success the object holds the parsed payload in the finite state regardless
of its prior state. -/
def streamRead (ext : Extended) (text : String) : Option Extended :=
  (parseInt text).map (fun v => { ext with m_value := v, m_flag := FINITE_FLAG })

end Extended

open Extended

/-- C5: `value()` returns the payload exactly when the state is Finite and
raises the finite error otherwise; `infinitySign()` returns the sign of the
infinite state and raises the finite error exactly when the state is
Finite.  Both are `const` methods, so the embedding types them as pure
functions of the receiver: they cannot modify it. -/
theorem value_infiniteSign_spec (e : Extended) (hv : e.Valid) :
    (e.finite = true → e.value = .ok e.m_value)
  ∧ (e.finite = false → e.value = .error "Finite error: This is infinite.")
  ∧ (e.finite = true → e.infinite_type = .error "Finite error: This is finite.")
  ∧ (e.m_flag = POS_INF_FLAG → e.infinite_type = .ok INF.POS)
  ∧ (e.m_flag = NEG_INF_FLAG → e.infinite_type = .ok INF.NEG) := by
  obtain h|h|h := hv <;>
    simp_all [Extended.value, Extended.infinite_type, Extended.finite,
      FINITE_FLAG, POS_INF_FLAG, NEG_INF_FLAG]

/-- Witness for C5 at a concrete positive infinity. -/
theorem value_infiniteSign_spec_witness :
    (Extended.mkInf INF.POS).infinite_type = .ok INF.POS :=
  (value_infiniteSign_spec (Extended.mkInf INF.POS) (by decide)).2.2.2.1 (by decide)

/-- C8: rendering a Finite value produces the primitive textual
representation of the payload (so `fromFinite 256` renders as `"256"`);
positive infinity renders as the literal `"+inf"` and negative infinity as
`"-inf"`. -/
theorem render_spec (e : Extended) :
    (e.finite = true → e.render = toString e.m_value)
  ∧ (Extended.mkFinite 256).render = "256"
  ∧ (Extended.mkInf INF.POS).render = "+inf"
  ∧ (Extended.mkInf INF.NEG).render = "-inf" := by
  refine ⟨fun h => ?_, by decide, by decide, by decide⟩
  simp [Extended.render, h]

/-- Witness for C8 at the finite value 256. -/
theorem render_spec_witness : (Extended.mkFinite 256).render = toString (256 : Int) :=
  (render_spec (Extended.mkFinite 256)).1 rfl

/-- C9: stream extraction always produces a Finite value, discarding any
prior state: whatever the prior state, a successful parse leaves the state
Finite, the result does not depend on the prior state, and parsing the text
`"-480"` yields a value equal to `fromFinite (-480)`. -/
theorem streamRead_spec (ext : Extended) :
    (∀ text r, ext.streamRead text = some r → r.finite = true)
  ∧ (∀ text, ext.streamRead text = Extended.mkDefault.streamRead text)
  ∧ ext.streamRead "-480" = some (Extended.mkFinite (-480))
  ∧ (∀ r, ext.streamRead "-480" = some r →
      Extended.beq r (Extended.mkFinite (-480)) = true) := by
  refine ⟨?_, ?_, ?_, ?_⟩
  · intro text r h
    cases ht : Extended.parseInt text with
    | none => simp [Extended.streamRead, ht] at h
    | some v =>
      simp [Extended.streamRead, ht] at h
      subst h
      rfl
  · intro text
    cases ht : Extended.parseInt text <;> simp [Extended.streamRead, ht]
  · have ht : Extended.parseInt "-480" = some (-480) := by decide
    simp [Extended.streamRead, ht, Extended.mkFinite]
  · intro r h
    have ht : Extended.parseInt "-480" = some (-480) := by decide
    simp [Extended.streamRead, ht] at h
    subst h
    rfl

/-- Witness for C9 at a prior state of positive infinity. -/
theorem streamRead_spec_witness :
    Extended.beq { m_value := -480, m_flag := Extended.FINITE_FLAG } (Extended.mkFinite (-480))
      = true :=
  (streamRead_spec (Extended.mkInf INF.POS)).2.2.2
    { m_value := -480, m_flag := Extended.FINITE_FLAG } (by decide)

/-- C6: on an infinite value, prefix/postfix increment and decrement mutate
only the payload, leave the flag (and hence the infinite sign) unchanged,
and are total (`noexcept` in the source, total functions here); the
finiteness, every comparison against any other value, and the rendered text
of the value are identical before and after. -/
theorem inc_dec_infinite_frame (a b : Extended) (h : a.finite = false) :
    a.incPre.m_flag = a.m_flag ∧ a.incPost.2.m_flag = a.m_flag
  ∧ a.decPre.m_flag = a.m_flag ∧ a.decPost.2.m_flag = a.m_flag
  ∧ a.incPre.finite = false ∧ a.decPre.finite = false
  ∧ Extended.blt a.incPre b = Extended.blt a b
  ∧ Extended.blt b a.incPre = Extended.blt b a
  ∧ Extended.beq a.incPre b = Extended.beq a b
  ∧ Extended.beq b a.incPre = Extended.beq b a
  ∧ Extended.blt a.decPre b = Extended.blt a b
  ∧ Extended.blt b a.decPre = Extended.blt b a
  ∧ Extended.beq a.decPre b = Extended.beq a b
  ∧ Extended.beq b a.decPre = Extended.beq b a
  ∧ a.incPre.render = a.render ∧ a.decPre.render = a.render := by
  refine ⟨rfl, rfl, rfl, rfl, h, h,
    ?_, ?_, ?_, ?_, ?_, ?_, ?_, ?_, ?_, ?_⟩ <;>
    simp [Extended.incPre, Extended.decPre, Extended.blt, Extended.beq, Extended.render,
      Extended.finite] at h ⊢ <;>
    simp [h]

/-- Witness for C6 at positive infinity against the finite value 5. -/
theorem inc_dec_infinite_frame_witness :
    Extended.blt (Extended.mkInf INF.POS).incPre (Extended.mkFinite 5)
      = Extended.blt (Extended.mkInf INF.POS) (Extended.mkFinite 5) :=
  (inc_dec_infinite_frame (Extended.mkInf INF.POS) (Extended.mkFinite 5) (by decide)).2.2.2.2.2.2.1

/-- C7: modulo and every bitwise operator raise the finite error exactly
when an operand is non-Finite (for unary complement, when its single
operand is), and on Finite operands apply the corresponding primitive
operator to the payloads, leaving the state Finite. -/
theorem mod_bitwise_finite_only (a b : Extended) :
    ((a.finite && b.finite) = false →
        Extended.modAssign a b
          = .error (a, "Finite error: modular arithmetic requires finite values.")
      ∧ Extended.andAssign a b
          = .error (a, "Finite error: bitwise and requires finite values.")
      ∧ Extended.orAssign a b
          = .error (a, "Finite error: bitwise or requires finite values.")
      ∧ Extended.xorAssign a b
          = .error (a, "Finite error: bitwise xor requires finite values.")
      ∧ Extended.shlAssign a b
          = .error (a, "Finite error: bitwise leftshift requires finite values.")
      ∧ Extended.shrAssign a b
          = .error (a, "Finite error: bitwise rightshift requires finite values."))
  ∧ ((a.finite && b.finite) = true →
        Extended.modAssign a b = .ok { a with m_value := a.m_value.tmod b.m_value }
      ∧ Extended.andAssign a b = .ok { a with m_value := a.m_value.land b.m_value }
      ∧ Extended.orAssign a b = .ok { a with m_value := a.m_value.lor b.m_value }
      ∧ Extended.xorAssign a b = .ok { a with m_value := a.m_value.xor b.m_value }
      ∧ Extended.shlAssign a b = .ok { a with m_value := shlPrim a.m_value b.m_value }
      ∧ Extended.shrAssign a b = .ok { a with m_value := shrPrim a.m_value b.m_value })
  ∧ (a.finite = false →
        Extended.bitNot a = .error "Finite error: bitwise not requires finite values.")
  ∧ (a.finite = true → Extended.bitNot a = .ok (Extended.mkFinite (~~~a.m_value))) := by
  refine ⟨fun h => ?_, fun h => ?_, fun h => ?_, fun h => ?_⟩ <;>
    simp [Extended.modAssign, Extended.andAssign, Extended.orAssign, Extended.xorAssign,
      Extended.shlAssign, Extended.shrAssign, Extended.bitNot, h]

/-- Witness for C7: taking `5 % +inf` raises the finite error. -/
theorem mod_bitwise_finite_only_witness :
    Extended.modAssign (Extended.mkFinite 5) (Extended.mkInf INF.POS)
      = .error (Extended.mkFinite 5,
          "Finite error: modular arithmetic requires finite values.") :=
  ((mod_bitwise_finite_only (Extended.mkFinite 5) (Extended.mkInf INF.POS)).1 (by decide)).1

/-- C1: `+=` and `-=` follow the additive state-transition table:
Finite/Finite takes the sum respectively difference of the payloads;
Finite/±Inf adopts the right operand's state for `+=` and the opposite
state for `-=`; an infinite left operand is unchanged by a Finite right
operand or by an infinity of the same sign (`+=`) / the opposite sign
(`-=`); and the four opposite cases are indeterminate forms raising the
finite-error kind. -/
theorem add_sub_table (a b : Extended) :
    (a.m_flag = FINITE_FLAG → b.m_flag = FINITE_FLAG →
        Extended.addAssign a b = .ok { m_value := a.m_value + b.m_value, m_flag := FINITE_FLAG }
      ∧ Extended.subAssign a b = .ok { m_value := a.m_value - b.m_value, m_flag := FINITE_FLAG })
  ∧ (a.m_flag = FINITE_FLAG → (b.m_flag = POS_INF_FLAG ∨ b.m_flag = NEG_INF_FLAG) →
        Extended.addAssign a b = .ok { m_value := a.m_value, m_flag := b.m_flag }
      ∧ Extended.subAssign a b = .ok { m_value := a.m_value, m_flag := -b.m_flag })
  ∧ (a.m_flag = POS_INF_FLAG → (b.m_flag = FINITE_FLAG ∨ b.m_flag = POS_INF_FLAG) →
        Extended.addAssign a b = .ok a)
  ∧ (a.m_flag = NEG_INF_FLAG → (b.m_flag = FINITE_FLAG ∨ b.m_flag = NEG_INF_FLAG) →
        Extended.addAssign a b = .ok a)
  ∧ (a.m_flag = POS_INF_FLAG → (b.m_flag = FINITE_FLAG ∨ b.m_flag = NEG_INF_FLAG) →
        Extended.subAssign a b = .ok a)
  ∧ (a.m_flag = NEG_INF_FLAG → (b.m_flag = FINITE_FLAG ∨ b.m_flag = POS_INF_FLAG) →
        Extended.subAssign a b = .ok a)
  ∧ (a.m_flag = POS_INF_FLAG → b.m_flag = NEG_INF_FLAG →
        Extended.addAssign a b = .error (a, "Indeterminate form: +inf + -inf"))
  ∧ (a.m_flag = NEG_INF_FLAG → b.m_flag = POS_INF_FLAG →
        Extended.addAssign a b = .error (a, "Indeterminate form: -inf + +inf"))
  ∧ (a.m_flag = POS_INF_FLAG → b.m_flag = POS_INF_FLAG →
        Extended.subAssign a b = .error (a, "Indeterminate form: +inf - +inf"))
  ∧ (a.m_flag = NEG_INF_FLAG → b.m_flag = NEG_INF_FLAG →
        Extended.subAssign a b = .error (a, "Indeterminate form: -inf - -inf")) := by
  refine ⟨fun h1 h2 => ?_, fun h1 h2 => ?_, fun h1 h2 => ?_, fun h1 h2 => ?_, fun h1 h2 => ?_,
    fun h1 h2 => ?_, fun h1 h2 => ?_, fun h1 h2 => ?_, fun h1 h2 => ?_, fun h1 h2 => ?_⟩ <;>
    first
      | (obtain h2 | h2 := h2 <;>
          simp_all [Extended.addAssign, Extended.subAssign,
            FINITE_FLAG, POS_INF_FLAG, NEG_INF_FLAG])
      | simp_all [Extended.addAssign, Extended.subAssign,
          FINITE_FLAG, POS_INF_FLAG, NEG_INF_FLAG]

/-- Witness for C1: `3 += 4` yields the finite value 7. -/
theorem add_sub_table_witness :
    Extended.addAssign (Extended.mkFinite 3) (Extended.mkFinite 4)
      = .ok (Extended.mkFinite 7) :=
  ((add_sub_table (Extended.mkFinite 3) (Extended.mkFinite 4)).1 rfl rfl).1

/-- C2: division follows the spec's table: Finite/Finite-nonzero divides the
payloads (truncated primitive quotient) and stays Finite; Finite/Infinite
yields Finite zero; Infinite/Finite-nonzero is infinite with sign the
product of the operand sign and the divisor's sign; any Finite-zero divisor
raises the finite-error kind, as does every Infinite/Infinite combination. -/
theorem div_table (a b : Extended) :
    (a.m_flag = FINITE_FLAG → b.m_flag = FINITE_FLAG → b.m_value ≠ 0 →
        Extended.divAssign a b
          = .ok { m_value := a.m_value.tdiv b.m_value, m_flag := FINITE_FLAG })
  ∧ (a.m_flag = FINITE_FLAG → (b.m_flag = POS_INF_FLAG ∨ b.m_flag = NEG_INF_FLAG) →
        Extended.divAssign a b = .ok { m_value := 0, m_flag := FINITE_FLAG })
  ∧ ((a.m_flag = POS_INF_FLAG ∨ a.m_flag = NEG_INF_FLAG) → b.m_flag = FINITE_FLAG →
        (b.m_value > 0 → Extended.divAssign a b = .ok a)
      ∧ (b.m_value < 0 →
          Extended.divAssign a b = .ok { m_value := a.m_value, m_flag := -a.m_flag }))
  ∧ ((a.m_flag = FINITE_FLAG ∨ a.m_flag = POS_INF_FLAG ∨ a.m_flag = NEG_INF_FLAG) →
      b.m_flag = FINITE_FLAG → b.m_value = 0 →
        Extended.divAssign a b = .error (a, "Indeterminate form: +inf / 0"))
  ∧ (a.m_flag = POS_INF_FLAG → b.m_flag = POS_INF_FLAG →
        Extended.divAssign a b = .error (a, "+inf / +inf indeterminate form."))
  ∧ (a.m_flag = POS_INF_FLAG → b.m_flag = NEG_INF_FLAG →
        Extended.divAssign a b = .error (a, "+inf / -inf indeterminate form."))
  ∧ (a.m_flag = NEG_INF_FLAG → b.m_flag = POS_INF_FLAG →
        Extended.divAssign a b = .error (a, "-inf / +inf indeterminate form."))
  ∧ (a.m_flag = NEG_INF_FLAG → b.m_flag = NEG_INF_FLAG →
        Extended.divAssign a b = .error (a, "-inf / -inf indeterminate form.")) := by
  refine ⟨fun h1 h2 h3 => ?_, fun h1 h2 => ?_, fun h1 h2 => ⟨fun h3 => ?_, fun h3 => ?_⟩,
    fun h1 h2 h3 => ?_, fun h1 h2 => ?_, fun h1 h2 => ?_, fun h1 h2 => ?_, fun h1 h2 => ?_⟩
  · simp_all [Extended.divAssign, FINITE_FLAG, POS_INF_FLAG, NEG_INF_FLAG]
  · obtain h2 | h2 := h2 <;>
      simp_all [Extended.divAssign, FINITE_FLAG, POS_INF_FLAG, NEG_INF_FLAG]
  · have hz : b.m_value ≠ 0 := by omega
    have hn : ¬ b.m_value < 0 := by omega
    obtain h1 | h1 := h1 <;>
      simp_all [Extended.divAssign, FINITE_FLAG, POS_INF_FLAG, NEG_INF_FLAG]
  · have hz : b.m_value ≠ 0 := by omega
    obtain h1 | h1 := h1 <;>
      simp_all [Extended.divAssign, FINITE_FLAG, POS_INF_FLAG, NEG_INF_FLAG]
  · obtain h1 | h1 | h1 := h1 <;>
      simp_all [Extended.divAssign, FINITE_FLAG, POS_INF_FLAG, NEG_INF_FLAG]
  all_goals simp_all [Extended.divAssign, FINITE_FLAG, POS_INF_FLAG, NEG_INF_FLAG]

/-- Witness for C2: `+inf / (-2)` is negative infinity. -/
theorem div_table_witness :
    Extended.divAssign (Extended.mkInf INF.POS) (Extended.mkFinite (-2))
      = .ok { m_value := 0, m_flag := Extended.NEG_INF_FLAG } :=
  ((div_table (Extended.mkInf INF.POS) (Extended.mkFinite (-2))).2.2.1
    (Or.inl rfl) rfl).2 (by decide)

/-- C3: under multiplication, a Finite-zero operand with an infinite
operand (either order) yields Finite zero; a Finite-nonzero operand with an
infinite operand yields an infinity signed by the product of the signs;
two infinite operands yield an infinity signed by the product of the two
signs; and multiplication never raises an error on valid operands. -/
theorem mul_table (a b : Extended) :
    (a.m_flag = FINITE_FLAG → a.m_value = 0 →
      (b.m_flag = POS_INF_FLAG ∨ b.m_flag = NEG_INF_FLAG) →
        Extended.mulAssign a b = .ok (Extended.mkFinite 0))
  ∧ ((a.m_flag = POS_INF_FLAG ∨ a.m_flag = NEG_INF_FLAG) →
      b.m_flag = FINITE_FLAG → b.m_value = 0 →
        Extended.mulAssign a b = .ok (Extended.mkFinite 0))
  ∧ (a.m_flag = FINITE_FLAG → (b.m_flag = POS_INF_FLAG ∨ b.m_flag = NEG_INF_FLAG) →
      (a.m_value > 0 →
          Extended.mulAssign a b = .ok { m_value := a.m_value, m_flag := b.m_flag })
    ∧ (a.m_value < 0 →
          Extended.mulAssign a b = .ok { m_value := a.m_value, m_flag := -b.m_flag }))
  ∧ ((a.m_flag = POS_INF_FLAG ∨ a.m_flag = NEG_INF_FLAG) → b.m_flag = FINITE_FLAG →
      (b.m_value > 0 → Extended.mulAssign a b = .ok a)
    ∧ (b.m_value < 0 →
          Extended.mulAssign a b = .ok { m_value := a.m_value, m_flag := -a.m_flag }))
  ∧ ((a.m_flag = POS_INF_FLAG ∨ a.m_flag = NEG_INF_FLAG) →
      (b.m_flag = POS_INF_FLAG ∨ b.m_flag = NEG_INF_FLAG) →
        Extended.mulAssign a b
          = .ok { m_value := a.m_value, m_flag := a.m_flag * b.m_flag })
  ∧ (a.Valid → b.Valid → ∃ r, Extended.mulAssign a b = .ok r) := by
  refine ⟨fun h1 h2 h3 => ?_, fun h1 h2 h3 => ?_, fun h1 h2 => ⟨fun h3 => ?_, fun h3 => ?_⟩,
    fun h1 h2 => ⟨fun h3 => ?_, fun h3 => ?_⟩, fun h1 h2 => ?_, fun h1 h2 => ?_⟩
  · obtain ⟨av, af⟩ := a
    obtain h3 | h3 := h3 <;>
      simp_all [Extended.mulAssign, Extended.mkFinite, FINITE_FLAG, POS_INF_FLAG, NEG_INF_FLAG]
  · obtain h1 | h1 := h1 <;>
      simp_all [Extended.mulAssign, Extended.mkFinite, FINITE_FLAG, POS_INF_FLAG, NEG_INF_FLAG]
  · have hn : ¬ a.m_value < 0 := by omega
    obtain h2 | h2 := h2 <;>
      simp_all [Extended.mulAssign, FINITE_FLAG, POS_INF_FLAG, NEG_INF_FLAG]
  · obtain h2 | h2 := h2 <;>
      simp_all [Extended.mulAssign, FINITE_FLAG, POS_INF_FLAG, NEG_INF_FLAG]
  · have hz : b.m_value ≠ 0 := by omega
    have hn : ¬ b.m_value < 0 := by omega
    obtain h1 | h1 := h1 <;>
      simp_all [Extended.mulAssign, FINITE_FLAG, POS_INF_FLAG, NEG_INF_FLAG]
  · have hz : b.m_value ≠ 0 := by omega
    obtain h1 | h1 := h1 <;>
      simp_all [Extended.mulAssign, FINITE_FLAG, POS_INF_FLAG, NEG_INF_FLAG]
  · obtain h1 | h1 := h1 <;> obtain h2 | h2 := h2 <;>
      simp_all [Extended.mulAssign, FINITE_FLAG, POS_INF_FLAG, NEG_INF_FLAG]
  · obtain h1 | h1 | h1 := h1 <;> obtain h2 | h2 | h2 := h2 <;>
      simp_all [Extended.mulAssign, FINITE_FLAG, POS_INF_FLAG, NEG_INF_FLAG] <;>
      split_ifs <;> simp

/-- Witness for C3: `0 * +inf` is the finite value zero. -/
theorem mul_table_witness :
    Extended.mulAssign (Extended.mkFinite 0) (Extended.mkInf INF.POS)
      = .ok (Extended.mkFinite 0) :=
  (mul_table (Extended.mkFinite 0) (Extended.mkInf INF.POS)).1 rfl rfl (Or.inl rfl)

/-- C10: whenever a compound-assignment operator raises the finite-error
kind, the left-hand operand is untouched: the error carries the receiver's
state at the throw, and that state always equals the original receiver,
because in every control path of the source the check precedes any
mutation. -/
theorem compound_assign_strong_safety (a b : Extended) :
    (∀ s m, Extended.addAssign a b = .error (s, m) → s = a)
  ∧ (∀ s m, Extended.subAssign a b = .error (s, m) → s = a)
  ∧ (∀ s m, Extended.divAssign a b = .error (s, m) → s = a)
  ∧ (∀ s m, Extended.modAssign a b = .error (s, m) → s = a)
  ∧ (∀ s m, Extended.andAssign a b = .error (s, m) → s = a)
  ∧ (∀ s m, Extended.orAssign a b = .error (s, m) → s = a)
  ∧ (∀ s m, Extended.xorAssign a b = .error (s, m) → s = a)
  ∧ (∀ s m, Extended.shlAssign a b = .error (s, m) → s = a)
  ∧ (∀ s m, Extended.shrAssign a b = .error (s, m) → s = a) := by
  refine ⟨?_, ?_, ?_, ?_, ?_, ?_, ?_, ?_, ?_⟩ <;>
    intro s m h <;>
    [unfold Extended.addAssign at h; unfold Extended.subAssign at h;
      unfold Extended.divAssign at h; unfold Extended.modAssign at h;
      unfold Extended.andAssign at h; unfold Extended.orAssign at h;
      unfold Extended.xorAssign at h; unfold Extended.shlAssign at h;
      unfold Extended.shrAssign at h] <;>
    split_ifs at h <;> simp_all

/-- Witness for C10: the failing `+inf += -inf` leaves the receiver as the
original positive infinity. -/
theorem compound_assign_strong_safety_witness :
    Extended.mkInf INF.POS = Extended.mkInf INF.POS :=
  (compound_assign_strong_safety (Extended.mkInf INF.POS) (Extended.mkInf INF.NEG)).1
    (Extended.mkInf INF.POS) "Indeterminate form: +inf + -inf" rfl

/-- C4: comparison is a strict total order on valid values: `<=` is
transitive and exactly one of `<`, `==`, `>` holds; two Finite values
compare by payload, every Finite value lies strictly between negative and
positive infinity, negative infinity is below positive infinity, and two
infinite values are equal exactly when they carry the same sign. -/
theorem order_spec (a b c : Extended) (ha : a.Valid) (hb : b.Valid) (hc : c.Valid) :
    (Extended.ble a b = true → Extended.ble b c = true → Extended.ble a c = true)
  ∧ (Extended.blt a b = true ∨ Extended.beq a b = true ∨ Extended.bgt a b = true)
  ∧ ¬(Extended.blt a b = true ∧ Extended.beq a b = true)
  ∧ ¬(Extended.blt a b = true ∧ Extended.bgt a b = true)
  ∧ ¬(Extended.beq a b = true ∧ Extended.bgt a b = true)
  ∧ (a.finite = true → b.finite = true →
      (Extended.blt a b = true ↔ a.m_value < b.m_value)
    ∧ (Extended.beq a b = true ↔ a.m_value = b.m_value))
  ∧ (a.finite = true →
      Extended.blt a (Extended.mkInf INF.POS) = true
    ∧ Extended.blt (Extended.mkInf INF.NEG) a = true)
  ∧ Extended.blt (Extended.mkInf INF.NEG) (Extended.mkInf INF.POS) = true
  ∧ (a.finite = false → b.finite = false →
      (Extended.beq a b = true ↔ a.m_flag = b.m_flag)) := by
  obtain ⟨av, af⟩ := a
  obtain ⟨bv, bf⟩ := b
  obtain ⟨cv, cf⟩ := c
  obtain ha | ha | ha := ha <;> obtain hb | hb | hb := hb <;> obtain hc | hc | hc := hc <;>
    simp_all [Extended.ble, Extended.blt, Extended.beq, Extended.bgt, Extended.finite,
      Extended.mkInf, FINITE_FLAG, POS_INF_FLAG, NEG_INF_FLAG] <;>
    omega

/-- Witness for C4 at three finite values. -/
theorem order_spec_witness :
    Extended.ble (Extended.mkFinite 1) (Extended.mkFinite 3) = true :=
  ((order_spec (Extended.mkFinite 1) (Extended.mkFinite 2) (Extended.mkFinite 3)
    (by decide) (by decide) (by decide)).1) (by decide) (by decide)
